import Mathlib

/-!
Verification of the Market-Data Completeness & Resampling Engine
(simutrador-data-manager backend).

Shallow embedding conventions:
* Timestamps are UTC instants measured in whole minutes since an epoch
  (an `Int`); a calendar day is the floor division of a timestamp by 1440,
  mirroring how the Python code truncates `datetime` values to minutes and
  extracts `datetime.date()` values.
* Prices and volumes are exact rationals (`Rat`), mirroring `Decimal`.
* Fallible collaborator calls (vendor HTTP fetch, trade probe, storage
  load) are modelled as `Except String` values: `.error e` models the call
  raising an exception with message `e`.
* Per-day 1-minute storage is a function `Int → List PriceCandle` from day
  index to the candles on disk for that day.
-/

namespace SimuTrador

/-- One OHLCV bar, mirroring `simutrador_core.models.price_data.PriceCandle`
with the timestamp in minutes since the UTC epoch. -/
structure PriceCandle where
  date : Int
  open_ : Rat
  high : Rat
  low : Rat
  close : Rat
  volume : Rat
deriving DecidableEq, Repr

/-- Result record of one gap-fill attempt, mirroring
`models.nightly_update_api.GapFillResult` (the two diagnostic URL fields
are omitted: they are logging artifacts produced by the out-of-scope URL
generator). -/
structure GapFillResult where
  start_time : Int
  end_time : Int
  attempted : Bool
  success : Bool
  candles_recovered : Int
  vendor_unavailable : Bool
  has_trading_activity : Option Bool
  error_message : Option String
deriving DecidableEq, Repr

/-- Day-indexed 1-minute candle storage. -/
def Store : Type := Int → List PriceCandle

/-- Calendar day of a candle timestamp (floor division by minutes per day),
mirroring `candle.date.date()`. -/
def candleDay (c : PriceCandle) : Int := c.date.fdiv 1440

/-- Mirrors `GapFillingService._check_trading_activity`: consumes the trade
probe result; an exception inside the probe is caught there and reported as
`(False, error text)`, mirroring the `except` clause at the end of the
Python method. -/
def check_trading_activity (probe : Except String Bool) : Bool × String :=
  match probe with
  | .ok has_activity => (has_activity, "Trading activity check completed")
  | .error e => (false, "Error checking trades: " ++ e)

/-- Candle ordering used by the Python `list.sort(key=lambda c: c.date)`
and pandas `sort_values("date")` calls. -/
def candleLE (a b : PriceCandle) : Prop := a.date ≤ b.date

instance : DecidableRel candleLE := fun a b => inferInstanceAs (Decidable (a.date ≤ b.date))

/-- Keep, for every timestamp, the LAST row carrying it, preserving order:
mirrors pandas `drop_duplicates(subset=["date"], keep="last")` on data
sorted by date (in `DataStorageService`). -/
def dropDuplicatesKeepLast : List PriceCandle → List PriceCandle
  | [] => []
  | c :: rest =>
    if (rest.map PriceCandle.date).contains c.date then dropDuplicatesKeepLast rest
    else c :: dropDuplicatesKeepLast rest

/-- Mirrors the in-memory merge in `GapFillingService._fill_single_gap`
(lines 379-399): load the day's existing candles, append only the fresh
candles whose timestamp is not already present, then sort by time. -/
def merge_recovered_day (existing fresh : List PriceCandle) : List PriceCandle :=
  let existing_times := existing.map PriceCandle.date
  let all_candles := existing ++ fresh.filter (fun c => ¬ existing_times.contains c.date)
  List.insertionSort candleLE all_candles

/-- Mirrors `DataStorageService.store_data` for one intraday day file:
concatenate on-disk rows with the new series, sort by date and drop
duplicate timestamps keeping the last occurrence. -/
def store_data_day (on_disk new_series : List PriceCandle) : List PriceCandle :=
  dropDuplicatesKeepLast (List.insertionSort candleLE (on_disk ++ new_series))

/-- The persisted state of one day after `_fill_single_gap` stores the
recovered candles for it: the service-level merge result written through
`store_data` on top of the same existing data. -/
def fill_store_day (existing fresh : List PriceCandle) : List PriceCandle :=
  store_data_day existing (merge_recovered_day existing fresh)

/-- Mirrors `GapFillingService._fill_single_gap`.  `fetch` is the vendor
interaction of the try-block (its `.ok` payload is the list of candles
already converted from the Polygon response; `.error` models an exception
raised while fetching), `probe` is the trade-existence check consumed by
`check_trading_activity` (which never lets an exception escape), `store`
is the 1-minute storage.  Returns the `GapFillResult` and the updated
storage. -/
def fill_single_gap (start_time end_time : Int)
    (fetch : Except String (List PriceCandle)) (probe : Except String Bool)
    (store : Store) : GapFillResult × Store :=
  match fetch with
  | .error e =>
      ({ start_time := start_time, end_time := end_time, attempted := true,
         success := false, candles_recovered := 0, vendor_unavailable := false,
         has_trading_activity := none, error_message := some e }, store)
  | .ok candles =>
      let relevant_candles :=
        candles.filter (fun c => start_time ≤ c.date ∧ c.date ≤ end_time)
      if relevant_candles.isEmpty then
        let has_activity := (check_trading_activity probe).1
        ({ start_time := start_time, end_time := end_time, attempted := true,
           success := false, candles_recovered := 0, vendor_unavailable := true,
           has_trading_activity := some has_activity,
           error_message := some (if has_activity then "Failed to fetch data from vendor"
             else "No trading activity detected during this period") }, store)
      else
        let store' : Store := fun d =>
          let date_candles := relevant_candles.filter (fun c => candleDay c = d)
          if date_candles.isEmpty then store d
          else fill_store_day (store d) date_candles
        ({ start_time := start_time, end_time := end_time, attempted := true,
           success := true, candles_recovered := relevant_candles.length,
           vendor_unavailable := false, has_trading_activity := some true,
           error_message := none }, store')

/-- Sequential per-period loop body of
`GapFillingService.fill_gaps_for_periods`, threading the storage. -/
def fill_gaps_go (fetch : Int × Int → Except String (List PriceCandle))
    (probe : Int × Int → Except String Bool) :
    List (Int × Int) → Store → List GapFillResult × Store
  | [], store => ([], store)
  | p :: ps, store =>
      let step := fill_single_gap p.1 p.2 (fetch p) (probe p) store
      let rest := fill_gaps_go fetch probe ps step.2
      (step.1 :: rest.1, rest.2)

/-- Mirrors `GapFillingService.fill_gaps_for_periods`: truncates the period
list to the first `max_attempts` entries and fills each in order. -/
def fill_gaps_for_periods (missing_periods : List (Int × Int)) (max_attempts : Nat)
    (fetch : Int × Int → Except String (List PriceCandle))
    (probe : Int × Int → Except String Bool) (store : Store) :
    List GapFillResult × Store :=
  fill_gaps_go fetch probe (missing_periods.take max_attempts) store

/-! ## Trading calendar, settings and the completeness validator
(`services.validation.stock_market_validation_service`,
`core.settings.NightlyUpdateSettings`).

Dates are day indices (an `Int`); the trading-day and half-day predicates
are parameters of the embedding because the Python service delegates them
to an external calendar library (`pandas_market_calendars` or the pandas
holiday fallback), which is outside the verified core. -/

/-- The validation-relevant fields of `core.settings.NightlyUpdateSettings`. -/
structure NightlyUpdateSettings where
  market_open_hour_utc : Int
  market_open_minute_utc : Int
  market_close_hour_utc : Int
  market_close_minute_utc : Int
  expected_candles_per_day : Int
  expected_candles_half_day : Int
  enable_market_hours_check : Bool
deriving DecidableEq, Repr

/-- The `Field(default=...)` values of `NightlyUpdateSettings`. -/
def default_nightly_settings : NightlyUpdateSettings :=
  { market_open_hour_utc := 13, market_open_minute_utc := 30,
    market_close_hour_utc := 20, market_close_minute_utc := 0,
    expected_candles_per_day := 390, expected_candles_half_day := 210,
    enable_market_hours_check := true }

/-- Mirrors `StockMarketValidationService.get_expected_candle_count`:
0 when not a trading day, else the half-day or full-day settings value. -/
def get_expected_candle_count (is_trading_day is_half_trading_day : Int → Bool)
    (s : NightlyUpdateSettings) (validation_date : Int) : Int :=
  if ¬ is_trading_day validation_date then 0
  else if is_half_trading_day validation_date then s.expected_candles_half_day
  else s.expected_candles_per_day

/-- Session length in minutes used by `_find_missing_periods` and
`_filter_regular_market_hours`: 3h30m on a half day, 6h30m on a full day. -/
def session_minutes (half_day : Bool) : Int := if half_day then 210 else 390

/-- Expected per-minute timestamp grid of a session: one timestamp per
minute from market open (inclusive) to market close (exclusive), mirroring
the while-loop in `_find_missing_periods`. -/
def expected_times (market_open : Int) (half_day : Bool) : List Int :=
  (List.range (session_minutes half_day).toNat).map
    (fun i : Nat => market_open + (i : Int))

/-- The consecutive-run grouping loop of `_find_missing_periods`:
`period_start` and `period_end` delimit the run being grown; a missing
minute that is not exactly one minute after `period_end` closes the
current period as the half-open interval
`(period_start, period_end + 1)` and opens a new run. -/
def group_missing_times (period_start period_end : Int) :
    List Int → List (Int × Int)
  | [] => [(period_start, period_end + 1)]
  | t :: rest =>
      if t = period_end + 1 then group_missing_times period_start t rest
      else (period_start, period_end + 1) :: group_missing_times t t rest

/-- The sorted list of missing minutes:
`sorted(expected_times - actual_times)` in the Python method, obtained
here by filtering the (increasing) expected grid. -/
def missing_times_list (candle_times : List Int) (market_open : Int)
    (half_day : Bool) : List Int :=
  (expected_times market_open half_day).filter (fun t => ¬ candle_times.contains t)

/-- Mirrors `StockMarketValidationService._find_missing_periods` with
candle timestamps already truncated to whole minutes (the Python method
drops seconds and microseconds before comparing): an empty candle list
yields the whole session as one period; otherwise the sorted set
difference between the expected grid and the candle timestamps is grouped
into maximal consecutive runs. -/
def find_missing_periods (candle_times : List Int) (market_open : Int)
    (half_day : Bool) : List (Int × Int) :=
  let market_close := market_open + session_minutes half_day
  if candle_times.isEmpty then [(market_open, market_close)]
  else
    match missing_times_list candle_times market_open half_day with
    | [] => []
    | m :: ms => group_missing_times m m ms

/-- Mirrors `_filter_regular_market_hours`: keep candles with market open
(inclusive) up to market close (exclusive), where the close is narrowed to
open + 3h30m on a half day. -/
def filter_regular_market_hours (half_day : Bool)
    (market_open market_close : Int) (candles : List PriceCandle) :
    List PriceCandle :=
  let close := if half_day then market_open + 210 else market_close
  candles.filter (fun c => market_open ≤ c.date ∧ c.date < close)

/-- Per-candle integrity checks of `_validate_data_integrity`, returning
`(errors, warnings)`; `i` is the running candle index used in messages. -/
def validate_data_integrity_from (i : Nat) :
    List PriceCandle → List String × List String
  | [] => ([], [])
  | c :: rest =>
      let tag := "Candle " ++ toString i ++ ": "
      let errs :=
        (if c.high < c.low then [tag ++ "High < Low"] else []) ++
        (if c.high < c.open_ ∨ c.high < c.close then [tag ++ "High < Open/Close"] else []) ++
        (if c.low > c.open_ ∨ c.low > c.close then [tag ++ "Low > Open/Close"] else []) ++
        (if c.open_ ≤ 0 ∨ c.high ≤ 0 ∨ c.low ≤ 0 ∨ c.close ≤ 0 then
          [tag ++ "Invalid price (zero or negative)"] else []) ++
        (if c.volume < 0 then [tag ++ "Negative volume"] else [])
      let warns := if c.volume = 0 ∧ ¬ c.volume < 0 then [tag ++ "Zero volume"] else []
      let rest' := validate_data_integrity_from (i + 1) rest
      (errs ++ rest'.1, warns ++ rest'.2)

/-- Mirrors `_validate_data_integrity`. -/
def validate_data_integrity (candles : List PriceCandle) : List String × List String :=
  validate_data_integrity_from 0 candles

/-- Result record of `validate_trading_day_data`, mirroring the Python
`ValidationResult` (the diagnostic Polygon URL list, produced by the
out-of-scope URL generator, is omitted). -/
structure ValidationResult where
  symbol : String
  validation_date : Int
  is_valid : Bool
  expected_candles : Int
  actual_candles : Int
  missing_periods : List (Int × Int)
  errors : List String
  warnings : List String
deriving DecidableEq, Repr

/-- Mirrors `StockMarketValidationService.validate_trading_day_data`.
The expected count is computed first; a non-trading day returns early as
valid.  Everything after that runs inside a try/except in the Python code,
whose only fallible collaborator call is the storage load, modelled by the
`load_result` argument: `.error e` models the load (or anything else in the
try-block) raising, which the except-branch converts into an invalid
result carrying the message.  The function is total: no exception ever
escapes. -/
def validate_trading_day_data (is_trading_day is_half_trading_day : Int → Bool)
    (s : NightlyUpdateSettings) (symbol : String) (validation_date : Int)
    (load_result : Except String (List PriceCandle)) : ValidationResult :=
  let expected_candles :=
    get_expected_candle_count is_trading_day is_half_trading_day s validation_date
  if expected_candles = 0 then
    { symbol := symbol, validation_date := validation_date, is_valid := true,
      expected_candles := 0, actual_candles := 0, missing_periods := [],
      errors := [], warnings := ["Not a trading day"] }
  else
    match load_result with
    | .error e =>
        { symbol := symbol, validation_date := validation_date, is_valid := false,
          expected_candles := expected_candles, actual_candles := 0,
          missing_periods := [], errors := ["Validation error: " ++ e],
          warnings := [] }
    | .ok candles =>
        let half := is_half_trading_day validation_date
        let market_open := validation_date * 1440 +
          s.market_open_hour_utc * 60 + s.market_open_minute_utc
        let market_close := validation_date * 1440 +
          s.market_close_hour_utc * 60 + s.market_close_minute_utc
        let actual_candles :=
          if s.enable_market_hours_check then
            (filter_regular_market_hours half market_open market_close candles).length
          else candles.length
        let missing_periods :=
          if s.enable_market_hours_check then
            find_missing_periods (candles.map PriceCandle.date) market_open half
          else []
        let missing_errors := missing_periods.map (fun p =>
          "Missing data from " ++ toString p.1 ++ " to " ++ toString p.2)
        if actual_candles = 0 then
          { symbol := symbol, validation_date := validation_date, is_valid := false,
            expected_candles := expected_candles, actual_candles := 0,
            missing_periods := missing_periods,
            errors := missing_errors ++ ["No data found for " ++ toString validation_date],
            warnings := [] }
        else
          let count_errors :=
            if actual_candles < expected_candles then
              ["Missing " ++ toString (expected_candles - actual_candles) ++ " candles"]
            else []
          let integrity := validate_data_integrity candles
          let errors := missing_errors ++ count_errors ++ integrity.1
          { symbol := symbol, validation_date := validation_date,
            is_valid := errors.isEmpty,
            expected_candles := expected_candles, actual_candles := actual_candles,
            missing_periods := missing_periods, errors := errors,
            warnings := integrity.2 }

/-! ## Asset types and the resampling engine's alignment policy
(`models.asset_types`, `services.storage.data_resampling_service`). -/

/-- Mirrors `models.asset_types.AssetType`. -/
inductive AssetType where
  | us_equity
  | crypto
  | forex
  | commodity
  | international_equity
  | unknown
deriving DecidableEq, Repr

/-- Mirrors `models.asset_types.MarketSession` (open/close wall-clock UTC). -/
structure MarketSession where
  name : String
  open_utc_hour : Int
  open_utc_minute : Int
  close_utc_hour : Int
  close_utc_minute : Int
deriving DecidableEq, Repr

/-- Mirrors `models.asset_types.AssetTypeConfig` (the fields the alignment
policy reads). -/
structure AssetTypeConfig where
  market_session : Option MarketSession
  is_24_7 : Bool
  use_session_alignment : Bool
deriving DecidableEq, Repr

/-- Mirrors `US_EQUITY_SESSION` (13:30-20:00 UTC). -/
def US_EQUITY_SESSION : MarketSession :=
  { name := "US Equity Regular Hours", open_utc_hour := 13, open_utc_minute := 30,
    close_utc_hour := 20, close_utc_minute := 0 }

/-- Mirrors `LONDON_FOREX_SESSION` (08:00-17:00 UTC). -/
def LONDON_FOREX_SESSION : MarketSession :=
  { name := "London Forex Session", open_utc_hour := 8, open_utc_minute := 0,
    close_utc_hour := 17, close_utc_minute := 0 }

/-- Mirrors the `ASSET_TYPE_CONFIGS` table. -/
def ASSET_TYPE_CONFIGS : AssetType → AssetTypeConfig
  | .us_equity =>
      { market_session := some US_EQUITY_SESSION, is_24_7 := false,
        use_session_alignment := true }
  | .crypto =>
      { market_session := none, is_24_7 := true, use_session_alignment := false }
  | .forex =>
      { market_session := some LONDON_FOREX_SESSION, is_24_7 := true,
        use_session_alignment := true }
  | .commodity =>
      { market_session := none, is_24_7 := false, use_session_alignment := false }
  | .international_equity =>
      { market_session := none, is_24_7 := false, use_session_alignment := false }
  | .unknown =>
      { market_session := none, is_24_7 := false, use_session_alignment := false }

/-- The pandas offset string of `MarketSession.resampling_offset`
(format "13h30min") expressed as a number of minutes. -/
def MarketSession.offset_minutes (s : MarketSession) : Int :=
  s.open_utc_hour * 60 + s.open_utc_minute

/-- Mirrors `models.asset_types.get_resampling_offset`: the session-open
offset for session-aligned asset types, `none` (plain UTC alignment)
otherwise. -/
def get_resampling_offset (asset_type : AssetType) : Option Int :=
  let config := ASSET_TYPE_CONFIGS asset_type
  if config.use_session_alignment then config.market_session.map MarketSession.offset_minutes
  else none

/-- Supported target timeframes of the resampling engine. -/
inductive Timeframe where
  | one_min
  | five_min
  | fifteen_min
  | thirty_min
  | one_hour
  | two_hour
  | four_hour
  | daily
deriving DecidableEq, Repr

/-- Bucket duration of a timeframe in minutes (the pandas frequency of
`get_pandas_frequency`). -/
def Timeframe.minutes : Timeframe → Int
  | .one_min => 1
  | .five_min => 5
  | .fifteen_min => 15
  | .thirty_min => 30
  | .one_hour => 60
  | .two_hour => 120
  | .four_hour => 240
  | .daily => 1440

/-- Left edge (= pandas label) of the resampling bucket containing minute
`t` for bucket length `m` and anchor offset `o`: pandas
`df.resample(freq, offset=o)` places bucket edges at
`o + k * m` and labels each bucket with its left edge. -/
def bucket_label (m o t : Int) : Int := o + m * ((t - o).fdiv m)

/-- Bucket assignment implemented by
`DataResamplingService._resample_dataframe` (lines 496-540): short
intraday targets (5/15/30 min) use the asset's `get_resampling_offset`
when it is set and plain UTC alignment otherwise; the daily target uses a
20h offset for US equities and plain UTC midnight otherwise; all other
targets (1h/2h/4h) use plain UTC alignment. -/
def resample_bucket (asset_type : AssetType) (to_timeframe : Timeframe) (t : Int) : Int :=
  match to_timeframe with
  | .five_min | .fifteen_min | .thirty_min =>
      match get_resampling_offset asset_type with
      | some offset => bucket_label to_timeframe.minutes offset t
      | none => bucket_label to_timeframe.minutes 0 t
  | .daily =>
      if asset_type = AssetType.us_equity then bucket_label 1440 (20 * 60) t
      else bucket_label 1440 0 t
  | _ => bucket_label to_timeframe.minutes 0 t

/-- Timestamp given to the emitted candle by
`DataResamplingService._dataframe_to_candles`: for the daily timeframe the
bucket label's calendar date combined with a fixed 20:00 UTC time; for
intraday timeframes the bucket label as-is. -/
def emitted_candle_timestamp (timeframe : Timeframe) (label : Int) : Int :=
  if timeframe = Timeframe.daily then (label.fdiv 1440) * 1440 + 20 * 60
  else label

/-- Spec-side description of a plain UTC-aligned bucket boundary: the
largest multiple of `m` minutes at or before `t` (buckets 00:00, 00:05,
... from UTC midnight). -/
def utc_aligned_bucket (m t : Int) : Int := m * (t.fdiv m)

/-- Spec-side description of a session-anchored bucket boundary: buckets
offset from UTC midnight by the asset's session-open time. -/
def session_anchored_bucket (session_open m t : Int) : Int :=
  session_open + m * ((t - session_open).fdiv m)

/-- The session-open time (minutes after UTC midnight) the spec attaches
to session-aligned asset classes: 13:30 for US equity, 08:00 for forex. -/
def spec_session_open : AssetType → Int
  | .us_equity => 13 * 60 + 30
  | .forex => 8 * 60
  | _ => 0

/-! ## Shared helper lemmas -/

/-- Base fields of every `GapFillResult` produced by `fill_single_gap`:
the period endpoints are echoed back and the attempt flag is set. -/
theorem fill_single_gap_base_fields (start_time end_time : Int)
    (fetch : Except String (List PriceCandle)) (probe : Except String Bool)
    (store : Store) :
    ((fill_single_gap start_time end_time fetch probe store).1).start_time = start_time
    ∧ ((fill_single_gap start_time end_time fetch probe store).1).end_time = end_time
    ∧ ((fill_single_gap start_time end_time fetch probe store).1).attempted = true := by
  cases fetch with
  | error e => exact ⟨rfl, rfl, rfl⟩
  | ok candles =>
      simp only [fill_single_gap]
      split <;> exact ⟨rfl, rfl, rfl⟩

/-- The gap-filling loop produces exactly one result per processed period. -/
theorem fill_gaps_go_length (fetch : Int × Int → Except String (List PriceCandle))
    (probe : Int × Int → Except String Bool) :
    ∀ (ps : List (Int × Int)) (store : Store),
      (fill_gaps_go fetch probe ps store).1.length = ps.length := by
  intro ps
  induction ps with
  | nil => intro store; rfl
  | cons p rest ih => intro store; simp [fill_gaps_go, ih]

/-- The i-th result of the gap-filling loop reports the i-th processed
period's endpoints and is marked attempted. -/
theorem fill_gaps_go_get (fetch : Int × Int → Except String (List PriceCandle))
    (probe : Int × Int → Except String Bool) :
    ∀ (ps : List (Int × Int)) (store : Store) (i : Nat)
      (hi : i < (fill_gaps_go fetch probe ps store).1.length) (hp : i < ps.length),
      ((fill_gaps_go fetch probe ps store).1.get ⟨i, hi⟩).start_time = (ps.get ⟨i, hp⟩).1
      ∧ ((fill_gaps_go fetch probe ps store).1.get ⟨i, hi⟩).end_time = (ps.get ⟨i, hp⟩).2
      ∧ ((fill_gaps_go fetch probe ps store).1.get ⟨i, hi⟩).attempted = true := by
  intro ps
  induction ps with
  | nil => intro store i hi hp; exact absurd hp (by simp)
  | cons p rest ih =>
      intro store i hi hp
      match i with
      | 0 => exact fill_single_gap_base_fields p.1 p.2 (fetch p) (probe p) store
      | Nat.succ j =>
          have hj : j <
              (fill_gaps_go fetch probe rest
                ((fill_single_gap p.1 p.2 (fetch p) (probe p) store).2)).1.length := by
            rw [fill_gaps_go_length]
            exact Nat.lt_of_succ_lt_succ hp
          exact ih ((fill_single_gap p.1 p.2 (fetch p) (probe p) store).2) j hj
            (Nat.lt_of_succ_lt_succ hp)

/-- Elements of `dropDuplicatesKeepLast l` come from `l`. -/
theorem mem_of_mem_dropDuplicatesKeepLast :
    ∀ {l : List PriceCandle} {c : PriceCandle}, c ∈ dropDuplicatesKeepLast l → c ∈ l := by
  intro l
  induction l with
  | nil => intro c hc; simp [dropDuplicatesKeepLast] at hc
  | cons a rest ih =>
      intro c hc
      by_cases h : ((rest.map PriceCandle.date).contains a.date) = true
      · rw [dropDuplicatesKeepLast, if_pos h] at hc
        exact List.mem_cons_of_mem a (ih hc)
      · rw [dropDuplicatesKeepLast, if_neg h] at hc
        rcases List.mem_cons.mp hc with rfl | hc'
        · exact List.mem_cons_self _ _
        · exact List.mem_cons_of_mem _ (ih hc')

/-- `dropDuplicatesKeepLast` preserves the set of timestamps. -/
theorem date_mem_dropDuplicatesKeepLast :
    ∀ (l : List PriceCandle) (t : Int),
      t ∈ (dropDuplicatesKeepLast l).map PriceCandle.date ↔ t ∈ l.map PriceCandle.date := by
  intro l
  induction l with
  | nil => intro t; simp [dropDuplicatesKeepLast]
  | cons a rest ih =>
      intro t
      by_cases h : ((rest.map PriceCandle.date).contains a.date) = true
      · rw [dropDuplicatesKeepLast, if_pos h]
        have ha : a.date ∈ rest.map PriceCandle.date := by simpa using h
        constructor
        · intro ht; exact List.mem_cons_of_mem _ ((ih t).mp ht)
        · intro ht
          rcases List.mem_cons.mp ht with rfl | ht'
          · exact (ih _).mpr ha
          · exact (ih _).mpr ht'
      · rw [dropDuplicatesKeepLast, if_neg h]
        simp only [List.map_cons, List.mem_cons]
        constructor
        · rintro (rfl | ht)
          · exact Or.inl rfl
          · exact Or.inr ((ih _).mp ht)
        · rintro (rfl | ht)
          · exact Or.inl rfl
          · exact Or.inr ((ih _).mpr ht)

/-- `dropDuplicatesKeepLast` leaves no duplicate timestamps. -/
theorem nodup_dropDuplicatesKeepLast :
    ∀ (l : List PriceCandle), ((dropDuplicatesKeepLast l).map PriceCandle.date).Nodup := by
  intro l
  induction l with
  | nil => simp [dropDuplicatesKeepLast]
  | cons a rest ih =>
      by_cases h : ((rest.map PriceCandle.date).contains a.date) = true
      · rw [dropDuplicatesKeepLast, if_pos h]; exact ih
      · rw [dropDuplicatesKeepLast, if_neg h]
        have ha : a.date ∉ rest.map PriceCandle.date := by simpa using h
        simp only [List.map_cons, List.nodup_cons]
        exact ⟨fun hmem => ha ((date_mem_dropDuplicatesKeepLast rest a.date).mp hmem), ih⟩

/-- Elements of the persisted day file come from the existing data or from
the fresh candles whose timestamp was not already present. -/
theorem mem_fill_store_day_cases (existing fresh : List PriceCandle) (c : PriceCandle)
    (hc : c ∈ fill_store_day existing fresh) :
    c ∈ existing ∨ (c ∈ fresh ∧ c.date ∉ existing.map PriceCandle.date) := by
  unfold fill_store_day store_data_day merge_recovered_day at hc
  have h1 := mem_of_mem_dropDuplicatesKeepLast hc
  have h2 := (List.mem_insertionSort candleLE).mp h1
  rcases List.mem_append.mp h2 with hold | hmerge
  · exact Or.inl hold
  · have h3 := (List.mem_insertionSort candleLE).mp hmerge
    rcases List.mem_append.mp h3 with hold | hnew
    · exact Or.inl hold
    · have := List.mem_filter.mp hnew
      refine Or.inr ⟨this.1, ?_⟩
      have hdec := this.2
      simpa using hdec

/-- Timestamp coverage of the persisted day file: exactly the union of the
existing timestamps and the fresh timestamps. -/
theorem date_mem_fill_store_day (existing fresh : List PriceCandle) (t : Int) :
    t ∈ (fill_store_day existing fresh).map PriceCandle.date
      ↔ t ∈ existing.map PriceCandle.date ∨ t ∈ fresh.map PriceCandle.date := by
  unfold fill_store_day store_data_day merge_recovered_day
  rw [date_mem_dropDuplicatesKeepLast]
  constructor
  · intro ht
    rcases List.mem_map.mp ht with ⟨c, hc, rfl⟩
    have h2 := (List.mem_insertionSort candleLE).mp hc
    rcases List.mem_append.mp h2 with hold | hmerge
    · exact Or.inl (List.mem_map_of_mem _ hold)
    · have h3 := (List.mem_insertionSort candleLE).mp hmerge
      rcases List.mem_append.mp h3 with hold | hnew
      · exact Or.inl (List.mem_map_of_mem _ hold)
      · exact Or.inr (List.mem_map_of_mem _ (List.mem_filter.mp hnew).1)
  · intro ht
    rcases ht with ht | ht
    · rcases List.mem_map.mp ht with ⟨c, hc, rfl⟩
      exact List.mem_map_of_mem _
        ((List.mem_insertionSort candleLE).mpr (List.mem_append_left _ hc))
    · rcases List.mem_map.mp ht with ⟨c, hc, rfl⟩
      by_cases hex : c.date ∈ existing.map PriceCandle.date
      · rcases List.mem_map.mp hex with ⟨c', hc', he⟩
        refine List.mem_map.mpr ⟨c', ?_, he⟩
        exact (List.mem_insertionSort candleLE).mpr (List.mem_append_left _ hc')
      · refine List.mem_map_of_mem _ ?_
        refine (List.mem_insertionSort candleLE).mpr (List.mem_append_right _ ?_)
        refine (List.mem_insertionSort candleLE).mpr (List.mem_append_right _ ?_)
        refine List.mem_filter.mpr ⟨hc, ?_⟩
        simpa using hex

/-- Both session lengths are positive. -/
theorem session_minutes_pos (half_day : Bool) : 0 < session_minutes half_day := by
  cases half_day <;> simp [session_minutes]

/-- The expected grid holds exactly the minutes from market open
(inclusive) to market close (exclusive). -/
theorem mem_expected_times (market_open t : Int) (half_day : Bool) :
    t ∈ expected_times market_open half_day ↔
      market_open ≤ t ∧ t < market_open + session_minutes half_day := by
  have hS : 0 < session_minutes half_day := session_minutes_pos half_day
  unfold expected_times
  rw [List.mem_map]
  constructor
  · rintro ⟨i, hi, rfl⟩
    rw [List.mem_range] at hi
    omega
  · rintro ⟨h1, h2⟩
    refine ⟨(t - market_open).toNat, ?_, ?_⟩
    · rw [List.mem_range]; omega
    · omega

/-- The expected grid is strictly increasing. -/
theorem expected_times_pairwise (market_open : Int) (half_day : Bool) :
    (expected_times market_open half_day).Pairwise (· < ·) := by
  unfold expected_times
  refine List.Pairwise.map _ (fun a b hab => ?_) (List.pairwise_lt_range _)
  omega

/-- Characterization of the missing-minutes list: exactly the expected
session minutes carried by no candle. -/
theorem mem_missing_times_list (candle_times : List Int) (market_open : Int)
    (half_day : Bool) (t : Int) :
    t ∈ missing_times_list candle_times market_open half_day ↔
      market_open ≤ t ∧ t < market_open + session_minutes half_day
        ∧ t ∉ candle_times := by
  unfold missing_times_list
  rw [List.mem_filter, mem_expected_times]
  simp [and_assoc]

/-- The missing-minutes list is strictly increasing. -/
theorem missing_times_list_pairwise (candle_times : List Int) (market_open : Int)
    (half_day : Bool) :
    (missing_times_list candle_times market_open half_day).Pairwise (· < ·) :=
  (expected_times_pairwise market_open half_day).filter _

/-- In a pairwise list, any two distinct members are related one way or
the other. -/
theorem pairwise_rel_of_mem {α : Type _} {R : α → α → Prop} :
    ∀ {l : List α}, l.Pairwise R → ∀ {a b : α}, a ∈ l → b ∈ l → a ≠ b →
      R a b ∨ R b a := by
  intro l hl
  induction hl with
  | nil => intro a b ha _ _; exact absurd ha (List.not_mem_nil a)
  | cons hhead _ ih =>
      intro a b ha hb hne
      rcases List.mem_cons.mp ha with rfl | ha'
      · rcases List.mem_cons.mp hb with rfl | hb'
        · exact absurd rfl hne
        · exact Or.inl (hhead b hb')
      · rcases List.mem_cons.mp hb with rfl | hb'
        · exact Or.inr (hhead a ha')
        · exact ih ha' hb' hne

/-- Coverage of the grouping loop: a minute lies in one of the produced
half-open periods exactly when it lies in the closed run
`[period_start, period_end]` being grown or in the remaining missing
minutes. -/
theorem group_missing_times_cover :
    ∀ (l : List Int) (ps pe t : Int), ps ≤ pe → List.Chain' (· < ·) (pe :: l) →
      ((∃ p ∈ group_missing_times ps pe l, p.1 ≤ t ∧ t < p.2)
        ↔ ((ps ≤ t ∧ t ≤ pe) ∨ t ∈ l)) := by
  intro l
  induction l with
  | nil =>
      intro ps pe t hle _
      simp only [group_missing_times, List.not_mem_nil, or_false]
      constructor
      · rintro ⟨p, hp, h1, h2⟩
        rw [List.mem_singleton] at hp
        subst hp
        exact ⟨h1, by omega⟩
      · rintro ⟨h1, h2⟩
        exact ⟨(ps, pe + 1), List.mem_singleton.mpr rfl, h1, by omega⟩
  | cons t0 rest ih =>
      intro ps pe t hle hchain
      rw [List.chain'_cons] at hchain
      obtain ⟨hlt, hchain'⟩ := hchain
      simp only [group_missing_times]
      by_cases he : t0 = pe + 1
      · rw [if_pos he]
        rw [ih ps t0 t (by omega) hchain']
        rw [List.mem_cons]
        constructor
        · rintro (⟨h1, h2⟩ | hr)
          · by_cases ht : t ≤ pe
            · exact Or.inl ⟨h1, ht⟩
            · exact Or.inr (Or.inl (by omega))
          · exact Or.inr (Or.inr hr)
        · rintro (⟨h1, h2⟩ | rfl | hr)
          · exact Or.inl ⟨h1, by omega⟩
          · exact Or.inl ⟨by omega, by omega⟩
          · exact Or.inr hr
      · rw [if_neg he]
        have h2 : pe + 1 < t0 := by omega
        rw [List.mem_cons]
        constructor
        · rintro ⟨p, hp, hp1, hp2⟩
          rcases List.mem_cons.mp hp with rfl | hp'
          · exact Or.inl ⟨hp1, by omega⟩
          · rcases (ih t0 t0 t le_rfl hchain').mp ⟨p, hp', hp1, hp2⟩ with ⟨ha, hb⟩ | hr
            · exact Or.inr (Or.inl (by omega))
            · exact Or.inr (Or.inr hr)
        · rintro (⟨h1, h2'⟩ | rfl | hr)
          · exact ⟨(ps, pe + 1), List.mem_cons_self _ _, h1, by omega⟩
          · obtain ⟨p, hp, hp1, hp2⟩ :=
              (ih _ _ _ le_rfl hchain').mpr (Or.inl ⟨le_rfl, le_rfl⟩)
            exact ⟨p, List.mem_cons_of_mem _ hp, hp1, hp2⟩
          · obtain ⟨p, hp, hp1, hp2⟩ := (ih t0 t0 t le_rfl hchain').mpr (Or.inr hr)
            exact ⟨p, List.mem_cons_of_mem _ hp, hp1, hp2⟩

/-- Every period produced by the grouping loop starts at or after the
current run's start. -/
theorem group_missing_times_start_le :
    ∀ (l : List Int) (ps pe : Int), ps ≤ pe → List.Chain' (· < ·) (pe :: l) →
      ∀ p ∈ group_missing_times ps pe l, ps ≤ p.1 := by
  intro l
  induction l with
  | nil =>
      intro ps pe hle _ p hp
      rw [group_missing_times, List.mem_singleton] at hp
      subst hp
      exact le_refl ps
  | cons t0 rest ih =>
      intro ps pe hle hchain p hp
      rw [List.chain'_cons] at hchain
      simp only [group_missing_times] at hp
      by_cases he : t0 = pe + 1
      · rw [if_pos he] at hp
        exact ih ps t0 (by omega) hchain.2 p hp
      · rw [if_neg he] at hp
        rcases List.mem_cons.mp hp with rfl | hp'
        · exact le_refl ps
        · have := ih t0 t0 le_rfl hchain.2 p hp'
          omega

/-- Every period produced by the grouping loop is nonempty. -/
theorem group_missing_times_lt :
    ∀ (l : List Int) (ps pe : Int), ps ≤ pe →
      ∀ p ∈ group_missing_times ps pe l, p.1 < p.2 := by
  intro l
  induction l with
  | nil =>
      intro ps pe hle p hp
      rw [group_missing_times, List.mem_singleton] at hp
      subst hp
      exact by omega
  | cons t0 rest ih =>
      intro ps pe hle p hp
      simp only [group_missing_times] at hp
      by_cases he : t0 = pe + 1
      · rw [if_pos he] at hp
        exact ih ps t0 (by omega) p hp
      · rw [if_neg he] at hp
        rcases List.mem_cons.mp hp with rfl | hp'
        · exact by omega
        · exact ih t0 t0 le_rfl p hp'

/-- The grouping loop produces strictly separated periods: each period
ends strictly before the next one starts. -/
theorem group_missing_times_pairwise :
    ∀ (l : List Int) (ps pe : Int), ps ≤ pe → List.Chain' (· < ·) (pe :: l) →
      (group_missing_times ps pe l).Pairwise
        (fun p q : Int × Int => p.2 < q.1) := by
  intro l
  induction l with
  | nil =>
      intro ps pe _ _
      rw [group_missing_times]
      exact List.pairwise_singleton _ _
  | cons t0 rest ih =>
      intro ps pe hle hchain
      rw [List.chain'_cons] at hchain
      simp only [group_missing_times]
      by_cases he : t0 = pe + 1
      · rw [if_pos he]
        exact ih ps t0 (by omega) hchain.2
      · rw [if_neg he]
        refine List.Pairwise.cons (fun q hq => ?_) (ih t0 t0 le_rfl hchain.2)
        have hstart := group_missing_times_start_le rest t0 t0 le_rfl hchain.2 q hq
        have : pe < t0 := hchain.1
        omega

/-! ## Claim theorems -/

/-- Claim C3: under the default settings, the expected candle count of a
date is 0 exactly when the date is not a trading day, and otherwise it is
210 on a half trading day and 390 on a full trading day. -/
theorem c3_expected_candle_count
    (is_trading_day is_half_trading_day : Int → Bool) (d : Int) :
    (get_expected_candle_count is_trading_day is_half_trading_day
        default_nightly_settings d = 0 ↔ is_trading_day d = false)
    ∧ (is_trading_day d = true →
        get_expected_candle_count is_trading_day is_half_trading_day
            default_nightly_settings d
          = if is_half_trading_day d then 210 else 390) := by
  unfold get_expected_candle_count default_nightly_settings
  cases h1 : is_trading_day d <;> cases h2 : is_half_trading_day d <;> simp

/-- Claim C4: for 5/15/30-minute targets the resampler uses
session-anchored buckets (offset from UTC midnight by the asset's session
open: 13:30 for US equity, 08:00 for forex) exactly for the US-equity and
forex asset classes and plain UTC-aligned buckets for every other class;
for 1h/2h/4h targets it uses plain UTC-aligned buckets for every class. -/
theorem c4_intraday_alignment (asset_type : AssetType) (t : Int) :
    (∀ tf : Timeframe,
      tf = Timeframe.five_min ∨ tf = Timeframe.fifteen_min ∨ tf = Timeframe.thirty_min →
      resample_bucket asset_type tf t =
        if asset_type = AssetType.us_equity ∨ asset_type = AssetType.forex then
          session_anchored_bucket (spec_session_open asset_type) tf.minutes t
        else utc_aligned_bucket tf.minutes t)
    ∧ (∀ tf : Timeframe,
      tf = Timeframe.one_hour ∨ tf = Timeframe.two_hour ∨ tf = Timeframe.four_hour →
      resample_bucket asset_type tf t = utc_aligned_bucket tf.minutes t) := by
  constructor <;>
    · rintro tf (rfl | rfl | rfl) <;> cases asset_type <;>
        simp [resample_bucket, get_resampling_offset, ASSET_TYPE_CONFIGS,
          US_EQUITY_SESSION, LONDON_FOREX_SESSION, MarketSession.offset_minutes,
          bucket_label, session_anchored_bucket, utc_aligned_bucket,
          spec_session_open, Timeframe.minutes]

/-- Claim C1 (code evaluation at the failing input): for a crypto asset the
daily bucket containing minute 30 of day 0 is anchored at UTC midnight
(label 0) as the claim states, but the candle emitted for that bucket is
timestamped 20:00 UTC (minute 1200), not UTC midnight, because
`_dataframe_to_candles` stamps every daily candle at 20:00 UTC regardless
of asset class, contradicting its own comment. -/
theorem c1_daily_crypto_emitted_at_2000 :
    resample_bucket AssetType.crypto Timeframe.daily 30 = 0
    ∧ emitted_candle_timestamp Timeframe.daily
        (resample_bucket AssetType.crypto Timeframe.daily 30) = 1200
    ∧ resample_bucket AssetType.us_equity Timeframe.daily 1230 = 1200
    ∧ emitted_candle_timestamp Timeframe.daily
        (resample_bucket AssetType.us_equity Timeframe.daily 1230) = 1200 := by
  decide

/-- Claim C9: every result of `_fill_single_gap` has `attempted = true`,
`success` holds exactly when at least one candle was recovered, and a
successful result reports the vendor available and trading activity
present. -/
theorem c9_fill_single_gap_invariant (start_time end_time : Int)
    (fetch : Except String (List PriceCandle)) (probe : Except String Bool)
    (store : Store) :
    ((fill_single_gap start_time end_time fetch probe store).1).attempted = true
    ∧ (((fill_single_gap start_time end_time fetch probe store).1).success = true
        ↔ 0 < ((fill_single_gap start_time end_time fetch probe store).1).candles_recovered)
    ∧ (((fill_single_gap start_time end_time fetch probe store).1).success = true →
        ((fill_single_gap start_time end_time fetch probe store).1).vendor_unavailable = false
        ∧ ((fill_single_gap start_time end_time fetch probe store).1).has_trading_activity
            = some true) := by
  cases fetch with
  | error e => simp [fill_single_gap]
  | ok candles =>
      simp only [fill_single_gap]
      split
      · simp
      · rename_i h
        refine ⟨rfl, ?_, fun _ => ⟨rfl, rfl⟩⟩
        have hne :
            (candles.filter fun c => decide (start_time ≤ c.date ∧ c.date ≤ end_time)) ≠ [] := by
          simpa [List.isEmpty_iff] using h
        have hpos := List.length_pos.mpr hne
        simp only [true_iff]
        exact_mod_cast hpos

/-- Claim C7: when the vendor fetch yields no candle inside the missing
period and the trade-existence probe finds no trades, the outcome reports
the vendor unavailable, no trading activity, and an error message naming
the absence of trading activity. -/
theorem c7_no_activity_outcome (start_time end_time : Int)
    (candles : List PriceCandle) (store : Store)
    (h : candles.filter (fun c => decide (start_time ≤ c.date ∧ c.date ≤ end_time)) = []) :
    ((fill_single_gap start_time end_time (.ok candles) (.ok false) store).1).vendor_unavailable
        = true
    ∧ ((fill_single_gap start_time end_time (.ok candles) (.ok false) store).1).has_trading_activity
        = some false
    ∧ ((fill_single_gap start_time end_time (.ok candles) (.ok false) store).1).error_message
        = some "No trading activity detected during this period" := by
  simp only [fill_single_gap]
  split
  · exact ⟨rfl, rfl, rfl⟩
  · rename_i hne
    exact absurd (List.isEmpty_iff.mpr h) hne

/-- Witness for C7 at a concrete input: a fetch returning a single candle
outside the period and a trade probe returning no trades. -/
theorem c7_no_activity_outcome_witness :
    ((fill_single_gap 0 10 (.ok [(⟨99, 1, 1, 1, 1, 1⟩ : PriceCandle)]) (.ok false)
        (fun _ => [])).1).vendor_unavailable = true
    ∧ ((fill_single_gap 0 10 (.ok [(⟨99, 1, 1, 1, 1, 1⟩ : PriceCandle)]) (.ok false)
        (fun _ => [])).1).has_trading_activity = some false
    ∧ ((fill_single_gap 0 10 (.ok [(⟨99, 1, 1, 1, 1, 1⟩ : PriceCandle)]) (.ok false)
        (fun _ => [])).1).error_message
        = some "No trading activity detected during this period" :=
  c7_no_activity_outcome 0 10 [(⟨99, 1, 1, 1, 1, 1⟩ : PriceCandle)] (fun _ => []) (by decide)

/-- Claim C8 counterexample: when the trade-existence probe raises (here
modelled by the probe value carrying an error) while the fetch returned no
candle, the outcome has `vendor_unavailable = true` and
`has_trading_activity = some false`, not the `vendor_unavailable = false`,
`has_trading_activity = none` the claim asserts for every exception during
fetch or probe. -/
theorem c8_probe_error_counterexample :
    ((fill_single_gap 0 1 (.ok []) (.error "probe failure") (fun _ => [])).1).vendor_unavailable
        = true
    ∧ ((fill_single_gap 0 1 (.ok []) (.error "probe failure") (fun _ => [])).1).has_trading_activity
        = some false := by
  decide

/-- Claim C8 (amended): an exception raised by the vendor fetch is caught
and yields `success = false`, `vendor_unavailable = false`,
`has_trading_activity = none` with the message preserved, leaving storage
untouched; an exception raised by the trade-existence probe is caught
inside the probe helper and treated as absence of trading activity, so the
outcome instead reports `vendor_unavailable = true`,
`has_trading_activity = some false`. -/
theorem c8_exception_handling (start_time end_time : Int) (msg : String)
    (probe : Except String Bool) (store : Store) :
    (fill_single_gap start_time end_time (.error msg) probe store)
      = ({ start_time := start_time, end_time := end_time, attempted := true,
           success := false, candles_recovered := 0, vendor_unavailable := false,
           has_trading_activity := none, error_message := some msg }, store)
    ∧ (∀ candles : List PriceCandle,
        candles.filter (fun c => decide (start_time ≤ c.date ∧ c.date ≤ end_time)) = [] →
        ((fill_single_gap start_time end_time (.ok candles) (.error msg) store).1)
          = { start_time := start_time, end_time := end_time, attempted := true,
              success := false, candles_recovered := 0, vendor_unavailable := true,
              has_trading_activity := some false,
              error_message := some "No trading activity detected during this period" }) := by
  refine ⟨rfl, fun candles h => ?_⟩
  simp only [fill_single_gap]
  split
  · rfl
  · rename_i hne
    exact absurd (List.isEmpty_iff.mpr h) hne

/-- Claim C6 counterexample: with two missing periods and
`max_attempts = 1` the returned list has a single entry, so it does not
contain one entry per input period (and in particular no entry marked
`attempted = false` for the excess period). -/
theorem c6_excess_periods_counterexample :
    ¬ ((fill_gaps_for_periods [(0, 1), (2, 3)] 1 (fun _ => Except.ok [])
          (fun _ => Except.ok false) (fun _ => [])).1.length
        = ([(0, 1), (2, 3)] : List (Int × Int)).length) := by
  decide

/-- Claim C6 (amended): `fill_gaps_for_periods` processes only the first
`max_attempts` periods; the returned list has exactly
`min max_attempts (number of periods)` entries, the i-th entry echoing the
i-th processed period's endpoints with `attempted = true`; excess periods
are skipped silently and contribute no entry at all. -/
theorem c6_fill_gaps_truncation (missing_periods : List (Int × Int)) (max_attempts : Nat)
    (fetch : Int × Int → Except String (List PriceCandle))
    (probe : Int × Int → Except String Bool) (store : Store) :
    (fill_gaps_for_periods missing_periods max_attempts fetch probe store).1.length
        = min max_attempts missing_periods.length
    ∧ ∀ (i : Nat)
        (hi : i < (fill_gaps_for_periods missing_periods max_attempts fetch probe store).1.length)
        (hp : i < (missing_periods.take max_attempts).length),
        ((fill_gaps_for_periods missing_periods max_attempts fetch probe store).1.get
            ⟨i, hi⟩).start_time = ((missing_periods.take max_attempts).get ⟨i, hp⟩).1
        ∧ ((fill_gaps_for_periods missing_periods max_attempts fetch probe store).1.get
            ⟨i, hi⟩).end_time = ((missing_periods.take max_attempts).get ⟨i, hp⟩).2
        ∧ ((fill_gaps_for_periods missing_periods max_attempts fetch probe store).1.get
            ⟨i, hi⟩).attempted = true := by
  constructor
  · rw [fill_gaps_for_periods, fill_gaps_go_length, List.length_take]
  · intro i hi hp
    exact fill_gaps_go_get fetch probe (missing_periods.take max_attempts) store i hi hp

/-- Claim C5 counterexample: a freshly fetched candle carrying the same
timestamp as a previously stored one is discarded, not preferred: the
persisted day keeps the old candle. -/
theorem c5_fresh_not_preferred_counterexample :
    ((fill_single_gap 600 660 (Except.ok [(⟨600, 2, 2, 2, 2, 2⟩ : PriceCandle)])
        (Except.ok true) (fun _ => [(⟨600, 1, 1, 1, 1, 1⟩ : PriceCandle)])).2 0)
      = [(⟨600, 1, 1, 1, 1, 1⟩ : PriceCandle)]
    ∧ (⟨600, 1, 1, 1, 1, 1⟩ : PriceCandle) ≠ (⟨600, 2, 2, 2, 2, 2⟩ : PriceCandle) := by
  decide

/-- Claim C5 (amended): a gap-fill attempt that recovers at least one
candle reports success with `candles_recovered` equal to the number of
recovered candles, and persists them merged with the existing stored data
of each affected day, deduplicated by timestamp with the PREVIOUSLY STORED
value preferred over the freshly fetched value at the same timestamp: the
persisted timestamps are exactly the union of old and fresh timestamps,
every persisted candle at a previously present timestamp comes from the
existing data, every persisted candle at a new timestamp comes from the
fresh data, and an updated day file carries no duplicate timestamps. -/
theorem c5_persist_merged (start_time end_time : Int) (candles : List PriceCandle)
    (probe : Except String Bool) (store : Store)
    (h : candles.filter (fun c => decide (start_time ≤ c.date ∧ c.date ≤ end_time)) ≠ []) :
    ((fill_single_gap start_time end_time (.ok candles) probe store).1).success = true
    ∧ ((fill_single_gap start_time end_time (.ok candles) probe store).1).candles_recovered
        = (candles.filter (fun c => decide (start_time ≤ c.date ∧ c.date ≤ end_time))).length
    ∧ ∀ d : Int,
        (∀ t : Int,
          t ∈ ((fill_single_gap start_time end_time (.ok candles) probe store).2 d).map
              PriceCandle.date
            ↔ t ∈ (store d).map PriceCandle.date
              ∨ t ∈ ((candles.filter
                  (fun c => decide (start_time ≤ c.date ∧ c.date ≤ end_time))).filter
                  (fun c => decide (candleDay c = d))).map PriceCandle.date)
        ∧ (∀ c ∈ (fill_single_gap start_time end_time (.ok candles) probe store).2 d,
            c ∈ store d
            ∨ (c ∈ (candles.filter
                  (fun c => decide (start_time ≤ c.date ∧ c.date ≤ end_time))).filter
                  (fun c => decide (candleDay c = d))
                ∧ c.date ∉ (store d).map PriceCandle.date))
        ∧ (((candles.filter (fun c => decide (start_time ≤ c.date ∧ c.date ≤ end_time))).filter
              (fun c => decide (candleDay c = d)) ≠ []) →
            (((fill_single_gap start_time end_time (.ok candles) probe store).2 d).map
                PriceCandle.date).Nodup) := by
  simp only [fill_single_gap]
  rw [if_neg (by simpa [List.isEmpty_iff] using h)]
  refine ⟨rfl, rfl, fun d => ?_⟩
  dsimp only
  by_cases hd : ((candles.filter
      (fun c => decide (start_time ≤ c.date ∧ c.date ≤ end_time))).filter
      (fun c => decide (candleDay c = d))).isEmpty = true
  · rw [if_pos hd]
    have hde : ((candles.filter
        (fun c => decide (start_time ≤ c.date ∧ c.date ≤ end_time))).filter
        (fun c => decide (candleDay c = d))) = [] := List.isEmpty_iff.mp hd
    refine ⟨fun t => ?_, fun c hc => Or.inl hc, fun hne => absurd hde hne⟩
    rw [hde]
    simp
  · rw [if_neg hd]
    refine ⟨fun t => date_mem_fill_store_day _ _ t, fun c hc => ?_, fun _ => ?_⟩
    · rcases mem_fill_store_day_cases _ _ c hc with hold | hnew
      · exact Or.inl hold
      · exact Or.inr hnew
    · exact nodup_dropDuplicatesKeepLast _

/-- Witness for C5 at a concrete input: one candle recovered into an empty
store. -/
theorem c5_persist_merged_witness :
    ((fill_single_gap 0 10 (Except.ok [(⟨5, 1, 1, 1, 1, 1⟩ : PriceCandle)])
        (Except.ok true) (fun _ => [])).1).success = true :=
  (c5_persist_merged 0 10 [(⟨5, 1, 1, 1, 1, 1⟩ : PriceCandle)]
    (Except.ok true) (fun _ => []) (by decide)).1

/-- Claim C10: `validate_trading_day_data` is total (the embedding returns
a `ValidationResult` for every input), and when the storage load (or
anything else inside the validation try-block) raises on a trading day,
the exception is converted into an invalid result with zero actual
candles, the precomputed expected count, and the message recorded in
`errors`. -/
theorem c10_validation_catches_exceptions
    (is_trading_day is_half_trading_day : Int → Bool)
    (symbol : String) (d : Int) (msg : String)
    (h : is_trading_day d = true) :
    validate_trading_day_data is_trading_day is_half_trading_day
        default_nightly_settings symbol d (.error msg)
      = { symbol := symbol, validation_date := d, is_valid := false,
          expected_candles := get_expected_candle_count is_trading_day is_half_trading_day
            default_nightly_settings d,
          actual_candles := 0, missing_periods := [],
          errors := ["Validation error: " ++ msg], warnings := [] } := by
  have hne : get_expected_candle_count is_trading_day is_half_trading_day
      default_nightly_settings d ≠ 0 := by
    unfold get_expected_candle_count default_nightly_settings
    rw [h]
    by_cases h2 : is_half_trading_day d = true <;> simp [h2]
  simp only [validate_trading_day_data]
  rw [if_neg hne]

/-- Witness for C10 at a concrete input. -/
theorem c10_validation_catches_exceptions_witness :
    validate_trading_day_data (fun _ => true) (fun _ => false)
        default_nightly_settings "AAPL" 0 (.error "storage unavailable")
      = { symbol := "AAPL", validation_date := 0, is_valid := false,
          expected_candles := get_expected_candle_count (fun _ => true) (fun _ => false)
            default_nightly_settings 0,
          actual_candles := 0, missing_periods := [],
          errors := ["Validation error: " ++ "storage unavailable"], warnings := [] } :=
  c10_validation_catches_exceptions (fun _ => true) (fun _ => false) "AAPL" 0
    "storage unavailable" rfl

/-- Claim C2: `_find_missing_periods` returns half-open periods whose
minutes are exactly the expected session minutes carried by no candle
(coverage round-trip); the periods are nonempty, pairwise disjoint and
separated (each ends strictly before any later one starts, and the minute
at which a non-final period ends is an expected minute carried by a
candle); and an empty candle list yields the single whole-session period
from market open to market close. -/
theorem c2_find_missing_periods_spec (candle_times : List Int) (market_open : Int)
    (half_day : Bool) :
    (∀ t : Int,
        (∃ p ∈ find_missing_periods candle_times market_open half_day,
            p.1 ≤ t ∧ t < p.2)
          ↔ (market_open ≤ t ∧ t < market_open + session_minutes half_day
              ∧ t ∉ candle_times))
    ∧ (find_missing_periods candle_times market_open half_day).Pairwise
        (fun p q : Int × Int => p.2 < q.1)
    ∧ (∀ p ∈ find_missing_periods candle_times market_open half_day, p.1 < p.2)
    ∧ (∀ p ∈ find_missing_periods candle_times market_open half_day,
        ∀ q ∈ find_missing_periods candle_times market_open half_day,
        p.2 < q.1 →
          market_open ≤ p.2 ∧ p.2 < market_open + session_minutes half_day
            ∧ p.2 ∈ candle_times)
    ∧ (candle_times = [] →
        find_missing_periods candle_times market_open half_day
          = [(market_open, market_open + session_minutes half_day)]) := by
  have hS : 0 < session_minutes half_day := session_minutes_pos half_day
  simp only [find_missing_periods]
  by_cases hempty : candle_times.isEmpty = true
  · rw [if_pos hempty]
    have hnil : candle_times = [] := List.isEmpty_iff.mp hempty
    subst hnil
    refine ⟨fun t => ?_, List.pairwise_singleton _ _, ?_, ?_, fun _ => rfl⟩
    · constructor
      · rintro ⟨p, hp, h1, h2⟩
        rw [List.mem_singleton] at hp
        subst hp
        exact ⟨h1, h2, List.not_mem_nil t⟩
      · rintro ⟨h1, h2, _⟩
        exact ⟨(market_open, market_open + session_minutes half_day),
          List.mem_singleton.mpr rfl, h1, h2⟩
    · intro p hp
      rw [List.mem_singleton] at hp
      subst hp
      omega
    · intro p hp q hq hlt
      rw [List.mem_singleton] at hp hq
      subst hp
      subst hq
      omega
  · rw [if_neg hempty]
    split
    · rename_i hm
      refine ⟨fun t => ?_, List.Pairwise.nil, ?_, ?_, fun hc => ?_⟩
      · constructor
        · rintro ⟨p, hp, _⟩
          exact absurd hp (List.not_mem_nil p)
        · rintro ⟨h1, h2, h3⟩
          have ht : t ∈ missing_times_list candle_times market_open half_day :=
            (mem_missing_times_list candle_times market_open half_day t).mpr ⟨h1, h2, h3⟩
          rw [hm] at ht
          exact absurd ht (List.not_mem_nil t)
      · intro p hp
        exact absurd hp (List.not_mem_nil p)
      · intro p hp
        exact absurd hp (List.not_mem_nil p)
      · subst hc
        simp at hempty
    · rename_i m ms hm
      have hpwall : (missing_times_list candle_times market_open half_day).Pairwise
          (· < ·) := missing_times_list_pairwise candle_times market_open half_day
      rw [hm] at hpwall
      have hch : List.Chain' (· < ·) (m :: ms) := List.chain'_iff_pairwise.mpr hpwall
      have hmem : ∀ t : Int, (t = m ∨ t ∈ ms) ↔
          (market_open ≤ t ∧ t < market_open + session_minutes half_day
            ∧ t ∉ candle_times) := by
        intro t
        rw [← List.mem_cons, ← hm]
        exact mem_missing_times_list candle_times market_open half_day t
      have hcover : ∀ t : Int,
          (∃ p ∈ group_missing_times m m ms, p.1 ≤ t ∧ t < p.2)
            ↔ (market_open ≤ t ∧ t < market_open + session_minutes half_day
                ∧ t ∉ candle_times) := by
        intro t
        rw [group_missing_times_cover ms m m t le_rfl hch, ← hmem t]
        constructor
        · rintro (⟨h1, h2⟩ | hr)
          · exact Or.inl (le_antisymm h2 h1)
          · exact Or.inr hr
        · rintro (rfl | hr)
          · exact Or.inl ⟨le_rfl, le_rfl⟩
          · exact Or.inr hr
      have hpair : (group_missing_times m m ms).Pairwise
          (fun p q : Int × Int => p.2 < q.1) :=
        group_missing_times_pairwise ms m m le_rfl hch
      have hbounds : ∀ p ∈ group_missing_times m m ms, p.1 < p.2 :=
        group_missing_times_lt ms m m le_rfl
      refine ⟨hcover, hpair, hbounds, ?_, fun hc => ?_⟩
      · intro p hp q hq hlt
        have hp12 := hbounds p hp
        have hq12 := hbounds q hq
        have h1 := (hcover p.1).mp ⟨p, hp, le_rfl, hp12⟩
        have hq1 := (hcover q.1).mp ⟨q, hq, le_rfl, hq12⟩
        refine ⟨by omega, by omega, ?_⟩
        by_contra hnot
        obtain ⟨r, hr, hr1, hr2⟩ := (hcover p.2).mpr ⟨by omega, by omega, hnot⟩
        have hne : p ≠ r := by
          intro heq
          subst heq
          omega
        rcases pairwise_rel_of_mem hpair hp hr hne with hcase | hcase
        · omega
        · have := hbounds r hr
          omega
      · subst hc
        simp at hempty

end SimuTrador
